import Mathlib

/-!
# iotdetector: ESP32 MQTT client driving an LED

A shallow embedding of `esp32/src/main.cpp`.  The sketch runs single threaded on the device;
every function of the sketch becomes a function on an explicit `World`, which holds the LED
output latch, the broker session flag of the `PubSubClient` object, the answers the outside
world is going to give (WiFi association polls, broker connect attempts) and the chronological
trace of every externally visible call the sketch has made.

Unbounded `while` loops take a fuel argument that bounds the number of evaluations of the loop
condition; `none` means the fuel ran out before the loop was left.
-/

namespace IotDetector

/-! ## Configuration constants (main.cpp lines 4-13) -/

def LED_PIN : Nat := 2

def WIFI_SSID : String := "Wokwi-GUEST"

def WIFI_PASSWORD : String := ""

def BROKER_ADDR : String := "192.168.0.150"

def BROKER_PORT : Nat := 1883

def BROKER_USERNAME : String := "usermqtt"

def BROKER_PASSWORD : String := "passmqtt"

def DEVICE_ID : String := "ESP32_Wokwi_01"

def TOPIC : String := "aha/object_detector/d6287655-7211-46b9-8fb2-1118f38512ed/person/stat_t"

def THRESHOLD : Int := 1

/-! ## Data model -/

/-- Level of a digital output line. -/
inductive Level where
  | LOW
  | HIGH
  deriving DecidableEq, Repr

/-- One `byte` / `char` of the target: an 8 bit pattern. -/
abbrev Byte := Fin 256

/-- Argument of a `Serial.print` / `Serial.println` call. -/
inductive Printable where
  | lit (s : String)
  | text (cs : List Byte)
  | int (i : Int)
  | localIP
  deriving DecidableEq, Repr

/-- Externally visible calls made by the sketch, in the order of the source. -/
inductive Event where
  | serialBegin (baud : Nat)
  | serialPrint (x : Printable)
  | serialPrintln (x : Printable)
  | pinModeOutput (pin : Nat)
  | digitalWrite (pin : Nat) (lvl : Level)
  | delay (ms : Nat)
  | wifiBegin (ssid pass : String)
  | wifiStatus (associated : Bool)
  | setServer (addr : String) (port : Nat)
  | setCallback
  | clientConnected (result : Bool)
  | clientConnect (id user pass : String) (result : Bool)
  | clientSubscribe (topic : String)
  | clientLoop
  deriving DecidableEq, Repr

/-- Outcome of one `client.connect` attempt, decided by the broker and the network. -/
inductive ConnectResult where
  | accepted
  | refused (rc : Int)
  deriving DecidableEq, Repr

/-- The device and its surroundings.
* `led`: level latched on `LED_PIN` (Actuation State);
* `session`: Session State of the `PubSubClient` object, what `client.connected()` reports;
* `rc`: what `client.state()` reports;
* `wifi i`: whether the `i`-th coming poll of `WiFi.status()` reports `WL_CONNECTED`;
* `broker i`: outcome of the `i`-th coming `client.connect` attempt;
* `trace`: every call made so far, oldest first. -/
structure World where
  led : Level
  session : Bool
  rc : Int
  wifi : Nat → Bool
  broker : Nat → ConnectResult
  trace : List Event

/-- An inbound message as handed to the registered callback. -/
structure Message where
  topic : String
  payload : List Byte

/-! ## Arduino core: pins, serial port, delay -/

def emit (e : Event) (w : World) : World :=
  { w with trace := w.trace ++ [e] }

/-- `digitalWrite(pin, lvl)`: latches `lvl` on `pin`; only `LED_PIN` is tracked. -/
def digitalWrite (pin : Nat) (lvl : Level) (w : World) : World :=
  emit (.digitalWrite pin lvl) { w with led := if pin = LED_PIN then lvl else w.led }

def pinModeOutput (pin : Nat) (w : World) : World := emit (.pinModeOutput pin) w

def serialBegin (baud : Nat) (w : World) : World := emit (.serialBegin baud) w

def serialPrint (x : Printable) (w : World) : World := emit (.serialPrint x) w

def serialPrintln (x : Printable) (w : World) : World := emit (.serialPrintln x) w

def delay (ms : Nat) (w : World) : World := emit (.delay ms) w

/-! ## Arduino core: `String::toInt`

`String::toInt()` of the ESP32 Arduino core is `atol(buffer())`, and `atol` of the target C
library is `strtol(s, NULL, 10)`: skip leading white space, read an optional sign, read decimal
digits up to the first character that is not one, saturate at the bounds of `long` (32 bits on
the target), and give 0 when no digit was read. -/

/-- C `isspace` in the "C" locale: space, `\t`, `\n`, `\v`, `\f`, `\r`. -/
def isspace (c : Byte) : Bool := c.val = 32 || (9 ≤ c.val && c.val ≤ 13)

/-- C `isdigit`: `'0'` .. `'9'`. -/
def isdigit (c : Byte) : Bool := 48 ≤ c.val && c.val ≤ 57

/-- Value of the longest run of decimal digits at the head of the input, on top of `acc`. -/
def parseDigits (acc : Nat) : List Byte → Nat
  | [] => acc
  | c :: rest => if isdigit c then parseDigits (acc * 10 + (c.val - 48)) rest else acc

def LONG_MAX : Int := 2147483647

def LONG_MIN : Int := -2147483648

/-- Out of range results of `strtol` are replaced by the nearest bound of `long`. -/
def saturate (x : Int) : Int :=
  if x > LONG_MAX then LONG_MAX else if x < LONG_MIN then LONG_MIN else x

/-- Modelled from the spec: `atol` of the C library, which is not part of the repository
("parse the leading numeric value from the text (best-effort integer parse; non-numeric or
empty text parses to zero"), with the white space, sign and saturation rules of `strtol`. -/
def atol (s : List Byte) : Int :=
  match s.dropWhile isspace with
  | [] => 0
  | c :: rest =>
    if c.val = 45 then saturate (-(parseDigits 0 rest : Int))
    else if c.val = 43 then saturate (parseDigits 0 rest : Int)
    else saturate (parseDigits 0 (c :: rest) : Int)

/-- The C string held by an Arduino `String`: its characters up to the first NUL. -/
def c_str (msg : List Byte) : List Byte := msg.takeWhile (fun c => c.val ≠ 0)

/-- Modelled from the spec: `String::toInt()` of the Arduino core, which is not part of the
repository; it is `atol` applied to the C string of the text. -/
def toInt (msg : List Byte) : Int := atol (c_str msg)

/-- Conversion of the `long` result to the `int` variable `value` (both 32 bits wide). -/
def longToInt (x : Int) : Int := (x + 2147483648) % 4294967296 - 2147483648

/-! ## `callback` (main.cpp lines 34-51) -/

/-- Lines 35-38: `String msg; for (i = 0; i < length; i++) msg += (char)payload[i];`
The payload list is the `length` bytes starting at `payload`. -/
def decode : List Byte → List Byte → List Byte
  | [], msg => msg
  | b :: rest, msg => decode rest (msg ++ [b])

def callback (topic : String) (payload : List Byte) (w : World) : World :=
  let msg := decode payload []
  let w := serialPrint (.lit "Message arrived [") w
  let w := serialPrint (.lit topic) w
  let w := serialPrint (.lit "]: ") w
  let w := serialPrintln (.text msg) w
  let value := longToInt (toInt msg)
  if value ≥ 1 then
    serialPrintln (.lit "LED ON") (digitalWrite LED_PIN .HIGH w)
  else
    serialPrintln (.lit "LED OFF") (digitalWrite LED_PIN .LOW w)

/-! ## PubSubClient session -/

/-- Modelled from the spec: `client.connected()` of the PubSubClient library, which is not part
of the repository; it reports the Session State ("implicit boolean - connected or not"). -/
def clientConnected (w : World) : Bool × World :=
  (w.session, emit (.clientConnected w.session) w)

/-- Modelled from the spec: `client.connect(id, user, pass)` of the PubSubClient library, which
is not part of the repository.  The next outcome of the broker is consumed; on success the
Session State becomes connected ("On success: transition Session State to connected"), on
failure it stays disconnected and the reason code is kept for `client.state()`. -/
def clientConnect (id user pass : String) (w : World) : Bool × World :=
  match w.broker 0 with
  | .accepted =>
    (true, emit (.clientConnect id user pass true)
      { w with session := true, rc := 0, broker := fun i => w.broker (i + 1) })
  | .refused rc =>
    (false, emit (.clientConnect id user pass false)
      { w with session := false, rc := rc, broker := fun i => w.broker (i + 1) })

/-- Modelled from the spec: `client.subscribe(topic)` of the PubSubClient library, which is not
part of the repository. -/
def clientSubscribe (topic : String) (w : World) : World := emit (.clientSubscribe topic) w

/-- Delivery of the arrived messages to the registered callback, one after the other. -/
def dispatchAll (arrived : List Message) (w : World) : World :=
  arrived.foldl (fun acc m => callback m.topic m.payload acc) w

/-- Modelled from the spec: `client.loop()` of the PubSubClient library, which is not part of
the repository: one round of protocol servicing, which "synchronously delivers any arrived
message to the Dispatcher".  `arrived` are the messages delivered in this round and `alive`
tells whether the session is still up afterwards. -/
def clientLoop (arrived : List Message) (alive : Bool) (w : World) : World :=
  let w := emit .clientLoop w
  let w := dispatchAll arrived w
  { w with session := alive }

/-! ## `reconnect` (main.cpp lines 53-68) -/

def reconnect : Nat → World → Option World
  | 0, _ => none
  | fuel + 1, w =>
    let (connected, w) := clientConnected w
    if !connected then
      let w := serialPrint (.lit "Attempting MQTT connection...") w
      let (ok, w) := clientConnect DEVICE_ID BROKER_USERNAME BROKER_PASSWORD w
      if ok then
        let w := serialPrintln (.lit "connected") w
        let w := clientSubscribe TOPIC w
        reconnect fuel w
      else
        let w := serialPrint (.lit "failed, rc=") w
        let w := serialPrint (.int w.rc) w
        let w := serialPrintln (.lit " try again in 5 seconds") w
        let w := delay 5000 w
        reconnect fuel w
    else
      some w

/-! ## `setup_wifi` (main.cpp lines 18-32) -/

/-- `WiFi.status() != WL_CONNECTED`: consumes the next poll answer. -/
def wifiStatus (w : World) : Bool × World :=
  (w.wifi 0, emit (.wifiStatus (w.wifi 0)) { w with wifi := fun i => w.wifi (i + 1) })

/-- Lines 24-27: the association wait loop. -/
def wifiWait : Nat → World → Option World
  | 0, _ => none
  | fuel + 1, w =>
    let (associated, w) := wifiStatus w
    if !associated then
      let w := delay 500 w
      let w := serialPrint (.lit ".") w
      wifiWait fuel w
    else
      some w

def setup_wifi (fuel : Nat) (w : World) : Option World :=
  let w := delay 10 w
  let w := serialPrintln (.lit "") w
  let w := serialPrint (.lit "Connecting to ") w
  let w := serialPrintln (.lit WIFI_SSID) w
  let w := emit (.wifiBegin WIFI_SSID WIFI_PASSWORD) w
  match wifiWait fuel w with
  | none => none
  | some w =>
    let w := serialPrintln (.lit "") w
    let w := serialPrintln (.lit "WiFi connected") w
    let w := serialPrint (.lit "IP address: ") w
    let w := serialPrintln .localIP w
    some w

/-! ## `setup` (main.cpp lines 70-77) and `loop` (lines 79-84) -/

def setup (fuel : Nat) (w : World) : Option World :=
  let w := serialBegin 115200 w
  let w := pinModeOutput LED_PIN w
  let w := digitalWrite LED_PIN .LOW w
  match setup_wifi fuel w with
  | none => none
  | some w =>
    let w := emit (.setServer BROKER_ADDR BROKER_PORT) w
    let w := emit .setCallback w
    some w

/-- One iteration of `loop()`.  `arrived` and `alive` are what the outside world makes of the
`client.loop()` call of this iteration. -/
def loop (fuel : Nat) (arrived : List Message) (alive : Bool) (w : World) : Option World :=
  let (connected, w) := clientConnected w
  let r := if !connected then reconnect fuel w else some w
  match r with
  | none => none
  | some w => some (clientLoop arrived alive w)

/-! ## Vocabulary of the specification: decimal texts, texts that begin with an integer -/

/-- ASCII code of the decimal digit `d % 10`. -/
def digitChar (d : Nat) : Byte := ⟨48 + d % 10, by omega⟩

/-- Decimal digits of `n`, most significant first; `fuel` bounds the number of digits. -/
def natDigits : Nat → Nat → List Byte
  | 0, _ => []
  | fuel + 1, n => if n < 10 then [digitChar n] else natDigits fuel (n / 10) ++ [digitChar n]

/-- Decimal text of a natural number, without leading zeros. -/
def natText (n : Nat) : List Byte := natDigits (n + 1) n

/-- Decimal text of an integer: the digits of its absolute value, after `-` when negative. -/
def decimalText : Int → List Byte
  | Int.ofNat n => natText n
  | Int.negSucc n => 45 :: natText (n + 1)

/-- The text begins with an integer in the sense of C: after optional leading white space comes
a digit, or a sign that is followed by a digit. -/
def beginsWithInteger (t : List Byte) : Bool :=
  match t.dropWhile isspace with
  | [] => false
  | c :: rest =>
    isdigit c || ((c.val = 45 || c.val = 43) && (match rest with
      | [] => false
      | d :: _ => isdigit d))

/-! ## Observations on the trace -/

/-- Events appended to the trace between `w` and the later world `w2`. -/
def eventsSince (w w2 : World) : List Event := w2.trace.drop w.trace.length

/-- Levels written to `LED_PIN`, in order. -/
def ledWrites (es : List Event) : List Level :=
  es.filterMap fun e =>
    match e with
    | .digitalWrite pin lvl => if pin = LED_PIN then some lvl else none
    | _ => none

/-- Arguments and result of the `client.connect` calls, in order. -/
def connectCalls (es : List Event) : List (String × String × String × Bool) :=
  es.filterMap fun e =>
    match e with
    | .clientConnect id user pass result => some (id, user, pass, result)
    | _ => none

/-- Durations of the `delay` calls, in order. -/
def delayCalls (es : List Event) : List Nat :=
  es.filterMap fun e =>
    match e with
    | .delay ms => some ms
    | _ => none

/-- Topics of the `client.subscribe` calls, in order. -/
def subscribeCalls (es : List Event) : List String :=
  es.filterMap fun e =>
    match e with
    | .clientSubscribe topic => some topic
    | _ => none

/-- Integers written to the serial log, in order. -/
def loggedCodes (es : List Event) : List Int :=
  es.filterMap fun e =>
    match e with
    | .serialPrint (.int i) => some i
    | _ => none

/-- Number of `client.loop` calls. -/
def clientLoopCalls (es : List Event) : Nat :=
  es.countP fun e =>
    match e with
    | .clientLoop => true
    | _ => false

/-- A text that is empty or starts with a character that is not a digit. -/
def stopsParse : List Byte → Bool
  | [] => true
  | c :: _ => !isdigit c

/-! ## Shapes of the traces of the sketch's functions -/

/-- Calls made by one run of `callback` that decides for the level `lvl`. -/
def callbackEvents (topic : String) (payload : List Byte) (lvl : Level) : List Event :=
  [ .serialPrint (.lit "Message arrived ["), .serialPrint (.lit topic),
    .serialPrint (.lit "]: "), .serialPrintln (.text (decode payload [])),
    .digitalWrite LED_PIN lvl,
    .serialPrintln (.lit (if lvl = .HIGH then "LED ON" else "LED OFF")) ]

/-- Calls made by one round of the `reconnect` loop whose connect attempt is refused with
reason code `rc`. -/
def failedAttempt (rc : Int) : List Event :=
  [ .clientConnected false,
    .serialPrint (.lit "Attempting MQTT connection..."),
    .clientConnect DEVICE_ID BROKER_USERNAME BROKER_PASSWORD false,
    .serialPrint (.lit "failed, rc="),
    .serialPrint (.int rc),
    .serialPrintln (.lit " try again in 5 seconds"),
    .delay 5000 ]

/-- Calls made by successive refused rounds, one per reason code. -/
def failedRounds : List Int → List Event
  | [] => []
  | rc :: rest => failedAttempt rc ++ failedRounds rest

/-- Calls made by the round of the `reconnect` loop whose connect attempt is accepted. -/
def openAttempt : List Event :=
  [ .clientConnected false,
    .serialPrint (.lit "Attempting MQTT connection..."),
    .clientConnect DEVICE_ID BROKER_USERNAME BROKER_PASSWORD true,
    .serialPrintln (.lit "connected"),
    .clientSubscribe TOPIC ]

/-- Calls made by the accepted round up to and including the loop condition that ends the
`reconnect` loop. -/
def acceptedAttempt : List Event := openAttempt ++ [.clientConnected true]

/-- World after `reconnect` has gone through the refused attempts `codes` and an accepted one. -/
def afterReconnect (codes : List Int) (w : World) : World :=
  { w with session := true, rc := 0,
           broker := fun i => w.broker (i + (codes.length + 1)),
           trace := w.trace ++ (failedRounds codes ++ acceptedAttempt) }

/-- Calls made by `k` rounds of the association wait loop of `setup_wifi`. -/
def pollRounds : Nat → List Event
  | 0 => []
  | k + 1 => [.wifiStatus false, .delay 500, .serialPrint (.lit ".")] ++ pollRounds k

/-- Calls made by `setup` when the network associates at the poll after `k` failed ones. -/
def setupEvents (k : Nat) : List Event :=
  [ .serialBegin 115200, .pinModeOutput LED_PIN, .digitalWrite LED_PIN .LOW,
    .delay 10, .serialPrintln (.lit ""), .serialPrint (.lit "Connecting to "),
    .serialPrintln (.lit WIFI_SSID), .wifiBegin WIFI_SSID WIFI_PASSWORD ]
  ++ pollRounds k ++
  [ .wifiStatus true, .serialPrintln (.lit ""), .serialPrintln (.lit "WiFi connected"),
    .serialPrint (.lit "IP address: "), .serialPrintln .localIP,
    .setServer BROKER_ADDR BROKER_PORT, .setCallback ]

/-! ## A concrete world -/

/-- A world to run the sketch in: LED lit, no session, the network associates at the third
poll and the broker refuses two connect attempts before it accepts one. -/
def sampleWorld : World :=
  { led := .HIGH, session := false, rc := -1,
    wifi := fun i => decide (2 ≤ i),
    broker := fun i => if i < 2 then .refused (-2) else .accepted,
    trace := [] }

/-! ## Lemmas -/

theorem decode_eq (p msg : List Byte) : decode p msg = msg ++ p := by
  induction p generalizing msg with
  | nil => simp [decode]
  | cons b rest ih => simp [decode, ih]

theorem isdigit_ne_zero {c : Byte} (h : isdigit c = true) : c.val ≠ 0 := by
  simp [isdigit] at h; omega

theorem isspace_ne_zero {c : Byte} (h : isspace c = true) : c.val ≠ 0 := by
  simp [isspace] at h; omega

theorem isdigit_not_space {c : Byte} (h : isdigit c = true) : isspace c = false := by
  simp [isdigit] at h
  simp [isspace]; omega

theorem c_str_cons_zero {c : Byte} (rest : List Byte) (h : c.val = 0) :
    c_str (c :: rest) = [] := by
  simp [c_str, List.takeWhile, h]

theorem c_str_cons {c : Byte} (rest : List Byte) (h : c.val ≠ 0) :
    c_str (c :: rest) = c :: c_str rest := by
  simp [c_str, List.takeWhile, h]

theorem saturate_zero : saturate 0 = 0 := by decide

theorem parseDigits_c_str (l : List Byte) (acc : Nat) :
    parseDigits acc (c_str l) = parseDigits acc l := by
  induction l generalizing acc with
  | nil => rfl
  | cons c rest ih =>
    by_cases h0 : c.val = 0
    · have hd : isdigit c = false := by simp [isdigit]; omega
      rw [c_str_cons_zero rest h0]
      simp [parseDigits, hd]
    · rw [c_str_cons rest h0]
      by_cases hd : isdigit c = true
      · simp [parseDigits, hd, ih]
      · simp [parseDigits, hd]

theorem dropWhile_c_str (l : List Byte) :
    (c_str l).dropWhile isspace = c_str (l.dropWhile isspace) := by
  induction l with
  | nil => rfl
  | cons c rest ih =>
    by_cases h0 : c.val = 0
    · have hs : isspace c = false := by simp [isspace]; omega
      rw [c_str_cons_zero rest h0]
      simp [List.dropWhile, hs, c_str_cons_zero rest h0]
    · rw [c_str_cons rest h0]
      by_cases hs : isspace c = true
      · simp [List.dropWhile, hs, ih]
      · simp [List.dropWhile, hs, c_str_cons rest h0]

/-- NUL truncation is invisible to the parse: every character the parse consumes is not NUL. -/
theorem toInt_eq_atol (msg : List Byte) : toInt msg = atol msg := by
  unfold toInt atol
  rw [dropWhile_c_str]
  cases h : msg.dropWhile isspace with
  | nil => rfl
  | cons c rest =>
    by_cases h0 : c.val = 0
    · have h45 : ¬ c.val = 45 := by omega
      have h43 : ¬ c.val = 43 := by omega
      have hd : isdigit c = false := by simp [isdigit]; omega
      rw [c_str_cons_zero rest h0]
      simp [h45, h43, parseDigits, hd, saturate_zero]
    · rw [c_str_cons rest h0]
      simp only [parseDigits_c_str]
      by_cases hd : isdigit c = true
      · simp [parseDigits, hd, parseDigits_c_str]
      · simp [parseDigits, hd]

theorem parseDigits_stop (acc : Nat) (rest : List Byte) (h : stopsParse rest = true) :
    parseDigits acc rest = acc := by
  cases rest with
  | nil => rfl
  | cons c r =>
    have hd : isdigit c = false := by simpa [stopsParse] using h
    simp [parseDigits, hd]

theorem parseDigits_append (xs rest : List Byte) (acc : Nat)
    (h : ∀ c ∈ xs, isdigit c = true) :
    parseDigits acc (xs ++ rest) = parseDigits (parseDigits acc xs) rest := by
  induction xs generalizing acc with
  | nil => rfl
  | cons c r ih =>
    have hc : isdigit c = true := h c (List.mem_cons_self c r)
    have hr : ∀ d ∈ r, isdigit d = true := fun d hd => h d (List.mem_cons_of_mem c hd)
    simp [parseDigits, hc, ih _ hr]

theorem isdigit_digitChar (d : Nat) : isdigit (digitChar d) = true := by
  simp [isdigit, digitChar]; omega

theorem natDigits_isdigit (fuel n : Nat) : ∀ c ∈ natDigits fuel n, isdigit c = true := by
  induction fuel generalizing n with
  | zero => simp [natDigits]
  | succ k ih =>
    intro c hc
    unfold natDigits at hc
    split at hc
    · simp at hc; subst hc; exact isdigit_digitChar n
    · rcases List.mem_append.mp hc with h | h
      · exact ih _ c h
      · simp at h; subst h; exact isdigit_digitChar n

theorem natDigits_ne_nil (fuel n : Nat) : natDigits (fuel + 1) n ≠ [] := by
  unfold natDigits
  split <;> simp

theorem parseDigits_digitChar (acc d : Nat) :
    parseDigits acc [digitChar d] = acc * 10 + d % 10 := by
  have hv : (digitChar d).val - 48 = d % 10 := by simp [digitChar]
  simp [parseDigits, isdigit_digitChar, hv]

theorem parseDigits_natDigits (fuel n : Nat) (h : n < fuel) :
    parseDigits 0 (natDigits fuel n) = n := by
  induction fuel generalizing n with
  | zero => omega
  | succ k ih =>
    unfold natDigits
    split
    · rw [parseDigits_digitChar]; omega
    · rw [parseDigits_append _ _ _ (natDigits_isdigit k (n / 10)), ih (n / 10) (by omega),
        parseDigits_digitChar]
      omega

/-- Parse of a run of digits followed by something that stops the parse. -/
theorem atol_digits (xs rest : List Byte) (hne : xs ≠ [])
    (hx : ∀ c ∈ xs, isdigit c = true) (hr : stopsParse rest = true) :
    atol (xs ++ rest) = saturate (parseDigits 0 xs : Int) := by
  cases xs with
  | nil => exact absurd rfl hne
  | cons c r =>
    have hc : isdigit c = true := hx c (List.mem_cons_self c r)
    have hs : isspace c = false := isdigit_not_space hc
    have hv : 48 ≤ c.val ∧ c.val ≤ 57 := by simpa [isdigit] using hc
    have h45 : ¬ c.val = 45 := by omega
    have h43 : ¬ c.val = 43 := by omega
    have hp := parseDigits_append (c :: r) rest 0 hx
    rw [parseDigits_stop _ rest hr] at hp
    simp only [List.cons_append] at hp
    simp [atol, List.dropWhile, hs, h45, h43, hp]

theorem atol_minus_digits (xs rest : List Byte)
    (hx : ∀ c ∈ xs, isdigit c = true) (hr : stopsParse rest = true) :
    atol (45 :: (xs ++ rest)) = saturate (-(parseDigits 0 xs : Int)) := by
  have hs : isspace (45 : Byte) = false := by decide
  have h45 : (45 : Byte).val = 45 := rfl
  have hp := parseDigits_append xs rest 0 hx
  rw [parseDigits_stop _ rest hr] at hp
  simp [atol, List.dropWhile, hs, hp, h45]

/-- The parse of the decimal text of `v`, followed by anything that stops the parse, is `v`
saturated to the range of `long`. -/
theorem toInt_decimalText (v : Int) (rest : List Byte) (hr : stopsParse rest = true) :
    toInt (decimalText v ++ rest) = saturate v := by
  rw [toInt_eq_atol]
  cases v with
  | ofNat n =>
    simp only [decimalText, natText]
    rw [atol_digits _ rest (natDigits_ne_nil n n) (natDigits_isdigit _ _) hr,
      parseDigits_natDigits (n + 1) n (Nat.lt_succ_self n)]
    rfl
  | negSucc n =>
    simp only [decimalText, natText, List.cons_append]
    rw [atol_minus_digits _ rest (natDigits_isdigit _ _) hr,
      parseDigits_natDigits (n + 1 + 1) (n + 1) (Nat.lt_succ_self _)]
    rfl

theorem longToInt_saturate (x : Int) : longToInt (saturate x) = saturate x := by
  unfold longToInt saturate LONG_MAX LONG_MIN
  split_ifs <;> omega

theorem saturate_ge_one (x : Int) : 1 ≤ saturate x ↔ 1 ≤ x := by
  unfold saturate LONG_MAX LONG_MIN
  split_ifs <;> omega

theorem callback_led (topic : String) (payload : List Byte) (w : World) :
    (callback topic payload w).led
      = if longToInt (toInt (decode payload [])) ≥ 1 then Level.HIGH else Level.LOW := by
  unfold callback
  by_cases h : longToInt (toInt (decode payload [])) ≥ 1
  · simp [h, serialPrintln, serialPrint, digitalWrite, emit]
  · simp [h, serialPrintln, serialPrint, digitalWrite, emit]

/-- Saturation keeps the side of the threshold: also for a `v` outside the range of `long` the
decimal text of `v` lights the LED exactly when `v ≥ 1`. -/
theorem callback_decimal_saturated (v : Int) (topic : String) (w : World) :
    (callback topic (decimalText v) w).led = if v ≥ 1 then Level.HIGH else Level.LOW := by
  have h := toInt_decimalText v [] rfl
  rw [List.append_nil] at h
  rw [callback_led, decode_eq, List.nil_append, h, longToInt_saturate]
  by_cases hv : 1 ≤ v
  · simp [hv, (saturate_ge_one v).mpr hv]
  · have hs : ¬ 1 ≤ saturate v := fun hc => hv ((saturate_ge_one v).mp hc)
    simp [hv, hs]

theorem callback_trace (topic : String) (payload : List Byte) (w : World) :
    (callback topic payload w).trace
      = w.trace ++ callbackEvents topic payload (callback topic payload w).led := by
  rw [callback_led]
  unfold callback callbackEvents
  by_cases h : longToInt (toInt (decode payload [])) ≥ 1
  · simp [h, serialPrintln, serialPrint, digitalWrite, emit]
  · simp [h, serialPrintln, serialPrint, digitalWrite, emit]

theorem callbackEvents_calls (topic : String) (payload : List Byte) (lvl : Level) :
    ledWrites (callbackEvents topic payload lvl) = [lvl]
    ∧ clientLoopCalls (callbackEvents topic payload lvl) = 0
    ∧ connectCalls (callbackEvents topic payload lvl) = []
    ∧ subscribeCalls (callbackEvents topic payload lvl) = []
    ∧ delayCalls (callbackEvents topic payload lvl) = [] := by
  simp [callbackEvents, ledWrites, clientLoopCalls, connectCalls, subscribeCalls, delayCalls]

theorem eventsSince_append (w w2 : World) (es : List Event) (h : w2.trace = w.trace ++ es) :
    eventsSince w w2 = es := by
  simp [eventsSince, h]

theorem atol_not_integer (t : List Byte) (h : beginsWithInteger t = false) : atol t = 0 := by
  unfold beginsWithInteger at h
  unfold atol
  cases hd : t.dropWhile isspace with
  | nil => rfl
  | cons c rest =>
    rw [hd] at h
    simp only [Bool.or_eq_false_iff] at h
    obtain ⟨hc, hsign⟩ := h
    by_cases h45 : c.val = 45
    · have hr : stopsParse rest = true := by
        cases rest with
        | nil => rfl
        | cons d r => simpa [stopsParse, h45] using hsign
      simp [h45, parseDigits_stop 0 rest hr, saturate_zero]
    · by_cases h43 : c.val = 43
      · have hr : stopsParse rest = true := by
          cases rest with
          | nil => rfl
          | cons d r => simpa [stopsParse, h43] using hsign
        simp [h43, parseDigits_stop 0 rest hr, saturate_zero]
      · simp [h45, h43, parseDigits, hc, saturate_zero]

theorem reconnect_connected (fuel : Nat) (w : World) (hs : w.session = true) :
    reconnect (fuel + 1) w = some (emit (.clientConnected true) w) := by
  simp [reconnect, clientConnected, hs]

theorem reconnect_accepted (fuel : Nat) (w : World) (hs : w.session = false)
    (h0 : w.broker 0 = .accepted) : reconnect (fuel + 2) w = some (afterReconnect [] w) := by
  simp [reconnect, clientConnected, clientConnect, clientSubscribe, serialPrint, serialPrintln,
    emit, hs, h0, afterReconnect, failedRounds, acceptedAttempt, openAttempt]

theorem reconnect_refused (fuel : Nat) (w : World) (rc : Int) (hs : w.session = false)
    (h0 : w.broker 0 = .refused rc) :
    reconnect (fuel + 1) w = reconnect fuel
      { w with session := false, rc := rc, broker := fun i => w.broker (i + 1),
               trace := w.trace ++ failedAttempt rc } := by
  conv_lhs => unfold reconnect
  simp [clientConnected, clientConnect, serialPrint, serialPrintln, delay,
    emit, hs, h0, failedAttempt]

/-- Total run of `reconnect` from a disconnected session: the broker refuses the attempts
listed in `codes` and accepts the next one. -/
theorem reconnect_run (codes : List Int) (w : World) (fuel : Nat)
    (hs : w.session = false)
    (hfail : ∀ i (h : i < codes.length), w.broker i = .refused codes[i])
    (hok : w.broker codes.length = .accepted)
    (hfuel : codes.length + 2 ≤ fuel) :
    reconnect fuel w = some (afterReconnect codes w) := by
  induction codes generalizing w fuel with
  | nil =>
    obtain ⟨f, rfl⟩ : ∃ f, fuel = f + 2 := ⟨fuel - 2, by simp at hfuel; omega⟩
    exact reconnect_accepted f w hs hok
  | cons rc rest ih =>
    obtain ⟨f, rfl⟩ : ∃ f, fuel = f + 1 := ⟨fuel - 1, by omega⟩
    have h0 : w.broker 0 = .refused rc := hfail 0 (by simp)
    rw [reconnect_refused f w rc hs h0]
    rw [ih _ f rfl]
    · simp [afterReconnect, failedRounds, List.append_assoc, Nat.add_assoc, Nat.add_comm 1]
    · intro i h
      have := hfail (i + 1) (by simpa using h)
      simpa using this
    · simpa using hok
    · simp at hfuel ⊢; omega

theorem ledWrites_append (a b : List Event) : ledWrites (a ++ b) = ledWrites a ++ ledWrites b := by
  simp [ledWrites]

theorem clientLoopCalls_append (a b : List Event) :
    clientLoopCalls (a ++ b) = clientLoopCalls a + clientLoopCalls b := by
  simp [clientLoopCalls]

theorem connectCalls_append (a b : List Event) :
    connectCalls (a ++ b) = connectCalls a ++ connectCalls b := by
  simp [connectCalls]

theorem subscribeCalls_append (a b : List Event) :
    subscribeCalls (a ++ b) = subscribeCalls a ++ subscribeCalls b := by
  simp [subscribeCalls]

theorem delayCalls_append (a b : List Event) :
    delayCalls (a ++ b) = delayCalls a ++ delayCalls b := by
  simp [delayCalls]

theorem loggedCodes_append (a b : List Event) :
    loggedCodes (a ++ b) = loggedCodes a ++ loggedCodes b := by
  simp [loggedCodes]

theorem failedRounds_calls (codes : List Int) :
    ledWrites (failedRounds codes) = []
    ∧ clientLoopCalls (failedRounds codes) = 0
    ∧ subscribeCalls (failedRounds codes) = []
    ∧ delayCalls (failedRounds codes) = List.replicate codes.length 5000
    ∧ loggedCodes (failedRounds codes) = codes
    ∧ connectCalls (failedRounds codes)
        = List.replicate codes.length (DEVICE_ID, BROKER_USERNAME, BROKER_PASSWORD, false) := by
  induction codes with
  | nil => simp [failedRounds, ledWrites, clientLoopCalls, subscribeCalls, delayCalls,
      loggedCodes, connectCalls]
  | cons rc rest ih =>
    obtain ⟨h1, h2, h3, h4, h5, h6⟩ := ih
    simp only [failedRounds, ledWrites_append, clientLoopCalls_append, subscribeCalls_append,
      delayCalls_append, loggedCodes_append, connectCalls_append, h1, h2, h3, h4, h5, h6]
    simp [failedAttempt, ledWrites, clientLoopCalls, subscribeCalls, delayCalls,
      loggedCodes, connectCalls, List.replicate_succ]

theorem acceptedAttempt_calls :
    ledWrites acceptedAttempt = []
    ∧ clientLoopCalls acceptedAttempt = 0
    ∧ subscribeCalls acceptedAttempt = [TOPIC]
    ∧ delayCalls acceptedAttempt = []
    ∧ loggedCodes acceptedAttempt = []
    ∧ connectCalls acceptedAttempt = [(DEVICE_ID, BROKER_USERNAME, BROKER_PASSWORD, true)] := by
  simp [acceptedAttempt, openAttempt, ledWrites, clientLoopCalls, subscribeCalls, delayCalls,
    loggedCodes, connectCalls]

theorem pollRounds_calls (k : Nat) :
    ledWrites (pollRounds k) = [] ∧ clientLoopCalls (pollRounds k) = 0 := by
  induction k with
  | zero => simp [pollRounds, ledWrites, clientLoopCalls]
  | succ n ih =>
    simp only [pollRounds, ledWrites_append, clientLoopCalls_append, ih.1, ih.2]
    simp [ledWrites, clientLoopCalls]

theorem reconnect_accepted_step (fuel : Nat) (w : World) (hs : w.session = false)
    (h0 : w.broker 0 = .accepted) :
    reconnect (fuel + 1) w = reconnect fuel
      { w with session := true, rc := 0, broker := fun i => w.broker (i + 1),
               trace := w.trace ++ openAttempt } := by
  conv_lhs => unfold reconnect
  simp [clientConnected, clientConnect, clientSubscribe, serialPrint, serialPrintln,
    emit, hs, h0, openAttempt]

/-- Whatever `reconnect` does before it returns, it neither writes the LED pin nor services
messages. -/
theorem reconnect_frame (fuel : Nat) (w w2 : World) (h : reconnect fuel w = some w2) :
    w2.led = w.led ∧ ∃ es, w2.trace = w.trace ++ es ∧ ledWrites es = []
      ∧ clientLoopCalls es = 0 := by
  induction fuel generalizing w with
  | zero => simp [reconnect] at h
  | succ f ih =>
    by_cases hs : w.session = true
    · rw [reconnect_connected f w hs] at h
      injection h with h
      subst h
      exact ⟨rfl, [.clientConnected true], rfl, by simp [ledWrites], by simp [clientLoopCalls]⟩
    · have hs2 : w.session = false := by simpa using hs
      cases hb : w.broker 0 with
      | accepted =>
        rw [reconnect_accepted_step f w hs2 hb] at h
        obtain ⟨hl, es, ht, hw, hc⟩ := ih _ h
        refine ⟨hl, openAttempt ++ es, ?_, ?_, ?_⟩
        · simpa [List.append_assoc] using ht
        · rw [ledWrites_append, hw]; simp [ledWrites, openAttempt]
        · rw [clientLoopCalls_append, hc]; simp [clientLoopCalls, openAttempt]
      | refused rc =>
        rw [reconnect_refused f w rc hs2 hb] at h
        obtain ⟨hl, es, ht, hw, hc⟩ := ih _ h
        refine ⟨hl, failedAttempt rc ++ es, ?_, ?_, ?_⟩
        · simpa [List.append_assoc] using ht
        · rw [ledWrites_append, hw]; simp [ledWrites, failedAttempt]
        · rw [clientLoopCalls_append, hc]; simp [clientLoopCalls, failedAttempt]

theorem wifiWait_down (fuel : Nat) (w : World) (h0 : w.wifi 0 = false) :
    wifiWait (fuel + 1) w = wifiWait fuel
      { w with wifi := fun i => w.wifi (i + 1),
               trace := w.trace ++ [.wifiStatus false, .delay 500, .serialPrint (.lit ".")] } := by
  conv_lhs => unfold wifiWait
  simp [wifiStatus, delay, serialPrint, emit, h0]

theorem wifiWait_up (fuel : Nat) (w : World) (h0 : w.wifi 0 = true) :
    wifiWait (fuel + 1) w = some
      { w with wifi := fun i => w.wifi (i + 1), trace := w.trace ++ [.wifiStatus true] } := by
  conv_lhs => unfold wifiWait
  simp [wifiStatus, emit, h0]

/-- Total run of the association wait loop: `k` polls fail, the next one succeeds. -/
theorem wifiWait_run (k : Nat) (w : World) (fuel : Nat)
    (hdown : ∀ i, i < k → w.wifi i = false) (hup : w.wifi k = true) (hfuel : k + 1 ≤ fuel) :
    wifiWait fuel w = some
      { w with wifi := fun i => w.wifi (i + (k + 1)),
               trace := w.trace ++ (pollRounds k ++ [.wifiStatus true]) } := by
  induction k generalizing w fuel with
  | zero =>
    obtain ⟨f, rfl⟩ : ∃ f, fuel = f + 1 := ⟨fuel - 1, by omega⟩
    rw [wifiWait_up f w hup]
    simp [pollRounds]
  | succ n ih =>
    obtain ⟨f, rfl⟩ : ∃ f, fuel = f + 1 := ⟨fuel - 1, by omega⟩
    rw [wifiWait_down f w (hdown 0 (by omega))]
    rw [ih _ f (fun i hi => hdown (i + 1) (by omega)) hup (by omega)]
    simp [pollRounds, List.append_assoc, Nat.add_assoc, Nat.add_comm 1]

/-- Whatever the association wait loop does before it returns, it does not write the LED pin. -/
theorem wifiWait_frame (fuel : Nat) (w w2 : World) (h : wifiWait fuel w = some w2) :
    w2.led = w.led ∧ ∃ es, w2.trace = w.trace ++ es ∧ ledWrites es = [] := by
  induction fuel generalizing w with
  | zero => simp [wifiWait] at h
  | succ f ih =>
    by_cases h0 : w.wifi 0 = true
    · rw [wifiWait_up f w h0] at h
      injection h with h
      subst h
      exact ⟨rfl, [.wifiStatus true], rfl, by simp [ledWrites]⟩
    · have h0f : w.wifi 0 = false := by simpa using h0
      rw [wifiWait_down f w h0f] at h
      obtain ⟨hl, es, ht, hw⟩ := ih _ h
      refine ⟨hl, [.wifiStatus false, .delay 500, .serialPrint (.lit ".")] ++ es, ?_, ?_⟩
      · simpa [List.append_assoc] using ht
      · rw [ledWrites_append, hw]; simp [ledWrites]

theorem setup_wifi_frame (fuel : Nat) (w w2 : World) (h : setup_wifi fuel w = some w2) :
    w2.led = w.led ∧ ∃ es, w2.trace = w.trace ++ es ∧ ledWrites es = [] := by
  unfold setup_wifi at h
  simp only at h
  split at h
  · exact absurd h (by simp)
  · rename_i w1 hw1
    injection h with h
    subst h
    obtain ⟨hl, es, ht, hw⟩ := wifiWait_frame fuel _ w1 hw1
    refine ⟨by simpa [serialPrintln, serialPrint, delay, emit] using hl,
      [ .delay 10, .serialPrintln (.lit ""), .serialPrint (.lit "Connecting to "),
        .serialPrintln (.lit WIFI_SSID), .wifiBegin WIFI_SSID WIFI_PASSWORD ] ++ es ++
      [ .serialPrintln (.lit ""), .serialPrintln (.lit "WiFi connected"),
        .serialPrint (.lit "IP address: "), .serialPrintln .localIP ], ?_, ?_⟩
    · simp [serialPrintln, serialPrint, delay, emit] at ht ⊢
      rw [ht]
      simp
    · simp only [ledWrites_append, hw]; simp [ledWrites]

/-- Dispatching messages one after the other: the LED pin is written once per message, with
the decision for that message, and the session is not touched. -/
theorem dispatchAll_calls (arrived : List Message) (w : World) :
    (dispatchAll arrived w).session = w.session
    ∧ (dispatchAll arrived w).led
        = ((arrived.map fun m => (callback m.topic m.payload w).led).getLast?).getD w.led
    ∧ ∃ es, (dispatchAll arrived w).trace = w.trace ++ es
      ∧ ledWrites es = arrived.map (fun m => (callback m.topic m.payload w).led)
      ∧ clientLoopCalls es = 0 ∧ connectCalls es = [] ∧ subscribeCalls es = []
      ∧ delayCalls es = [] := by
  induction arrived generalizing w with
  | nil => exact ⟨rfl, rfl, [], by simp [dispatchAll], rfl, rfl, rfl, rfl, rfl⟩
  | cons m rest ih =>
    obtain ⟨hs, hl, es, ht, h1, h2, h3, h4, h5⟩ := ih (callback m.topic m.payload w)
    have hsame : ∀ m2 : Message, (callback m2.topic m2.payload (callback m.topic m.payload w)).led
        = (callback m2.topic m2.payload w).led := fun m2 => by rw [callback_led, callback_led]
    have hsess : (callback m.topic m.payload w).session = w.session := by
      unfold callback
      simp only [serialPrintln, serialPrint, digitalWrite, emit]
      split <;> rfl
    simp only [hsame] at hl h1
    refine ⟨by simpa [dispatchAll, hsess] using hs, ?_, ?_⟩
    · show (dispatchAll rest (callback m.topic m.payload w)).led = _
      rw [hl]
      cases rest with
      | nil => simp
      | cons m2 r2 =>
        simp only [List.map_cons]
        rw [List.getLast?_cons_cons]
        obtain ⟨z, hz⟩ : ∃ z, ((callback m2.topic m2.payload w).led
            :: List.map (fun m => (callback m.topic m.payload w).led) r2).getLast? = some z :=
          ⟨_, List.getLast?_eq_getLast _ (List.cons_ne_nil _ _)⟩
        rw [hz]; rfl
    · obtain ⟨c1, c2, c3, c4, c5⟩ :=
        callbackEvents_calls m.topic m.payload (callback m.topic m.payload w).led
      refine ⟨callbackEvents m.topic m.payload (callback m.topic m.payload w).led ++ es,
        ?_, ?_, ?_, ?_, ?_, ?_⟩
      · show (dispatchAll rest (callback m.topic m.payload w)).trace = _
        rw [ht, callback_trace, List.append_assoc]
      · rw [ledWrites_append, h1, c1]; rfl
      · rw [clientLoopCalls_append, h2, c2]
      · rw [connectCalls_append, h3, c3]; rfl
      · rw [subscribeCalls_append, h4, c4]; rfl
      · rw [delayCalls_append, h5, c5]; rfl

theorem loop_connected (fuel : Nat) (arrived : List Message) (alive : Bool) (w : World)
    (hs : w.session = true) :
    loop fuel arrived alive w
      = some (clientLoop arrived alive (emit (.clientConnected true) w)) := by
  simp [loop, clientConnected, hs]

theorem loop_disconnected (fuel : Nat) (arrived : List Message) (alive : Bool) (w : World)
    (hs : w.session = false) :
    loop fuel arrived alive w
      = (reconnect fuel (emit (.clientConnected false) w)).map (clientLoop arrived alive) := by
  simp only [loop, clientConnected, hs]
  cases reconnect fuel (emit (.clientConnected false) w) <;> rfl

/-- One round of protocol servicing: the `client.loop` call, then one `callback` run per
arrived message; the LED ends at the decision for the last message, if any. -/
theorem clientLoop_calls (arrived : List Message) (alive : Bool) (w : World) :
    (clientLoop arrived alive w).led
        = ((arrived.map fun m => (callback m.topic m.payload w).led).getLast?).getD w.led
    ∧ ∃ es, (clientLoop arrived alive w).trace = w.trace ++ .clientLoop :: es
      ∧ ledWrites es = arrived.map (fun m => (callback m.topic m.payload w).led)
      ∧ clientLoopCalls es = 0 ∧ connectCalls es = [] ∧ subscribeCalls es = [] := by
  obtain ⟨_, hl, es, ht, h1, h2, h3, h4, _⟩ := dispatchAll_calls arrived (emit .clientLoop w)
  have hsame : ∀ m : Message, (callback m.topic m.payload (emit .clientLoop w)).led
      = (callback m.topic m.payload w).led := fun m => by rw [callback_led, callback_led]
  simp only [hsame] at hl h1
  refine ⟨?_, es, ?_, h1, h2, h3, h4⟩
  · show (dispatchAll arrived (emit .clientLoop w)).led = _
    rw [hl]; rfl
  · show (dispatchAll arrived (emit .clientLoop w)).trace = _
    rw [ht]; simp [emit]

theorem setup_wifi_run (k : Nat) (w : World) (fuel : Nat)
    (hdown : ∀ i, i < k → w.wifi i = false) (hup : w.wifi k = true) (hfuel : k + 1 ≤ fuel) :
    setup_wifi fuel w = some
      { w with wifi := fun i => w.wifi (i + (k + 1)),
               trace := w.trace ++
                 ([ .delay 10, .serialPrintln (.lit ""), .serialPrint (.lit "Connecting to "),
                    .serialPrintln (.lit WIFI_SSID), .wifiBegin WIFI_SSID WIFI_PASSWORD ]
                  ++ pollRounds k ++
                  [ .wifiStatus true, .serialPrintln (.lit ""),
                    .serialPrintln (.lit "WiFi connected"),
                    .serialPrint (.lit "IP address: "), .serialPrintln .localIP ]) } := by
  unfold setup_wifi
  simp only
  rw [wifiWait_run k _ fuel (by simpa [serialPrintln, serialPrint, delay, emit] using hdown)
    (by simpa [serialPrintln, serialPrint, delay, emit] using hup) hfuel]
  simp [serialPrintln, serialPrint, delay, emit]

theorem setup_run (k : Nat) (w : World) (fuel : Nat)
    (hdown : ∀ i, i < k → w.wifi i = false) (hup : w.wifi k = true) (hfuel : k + 1 ≤ fuel) :
    setup fuel w = some
      { w with led := .LOW, wifi := fun i => w.wifi (i + (k + 1)),
               trace := w.trace ++ setupEvents k } := by
  unfold setup
  simp only
  rw [setup_wifi_run k _ fuel
    (by simpa [serialBegin, pinModeOutput, digitalWrite, emit] using hdown)
    (by simpa [serialBegin, pinModeOutput, digitalWrite, emit] using hup) hfuel]
  simp [serialBegin, pinModeOutput, digitalWrite, emit, setupEvents]

theorem loop_frame (fuel : Nat) (arrived : List Message) (alive : Bool) (w w2 : World)
    (h : loop fuel arrived alive w = some w2) :
    w2.led = ((arrived.map fun m => (callback m.topic m.payload w).led).getLast?).getD w.led
    ∧ ledWrites (eventsSince w w2)
        = arrived.map (fun m => (callback m.topic m.payload w).led) := by
  have key : ∀ w1 : World, w1.led = w.led → (∃ es, w1.trace = w.trace ++ es ∧ ledWrites es = []) →
      w2 = clientLoop arrived alive w1 →
      w2.led = ((arrived.map fun m => (callback m.topic m.payload w).led).getLast?).getD w.led
      ∧ ledWrites (eventsSince w w2)
          = arrived.map (fun m => (callback m.topic m.payload w).led) := by
    intro w1 hled htr hw2
    obtain ⟨es, ht, hw⟩ := htr
    obtain ⟨hl, es2, ht2, h1, _⟩ := clientLoop_calls arrived alive w1
    have hsame : ∀ m : Message, (callback m.topic m.payload w1).led
        = (callback m.topic m.payload w).led := fun m => by rw [callback_led, callback_led]
    simp only [hsame] at hl h1
    subst hw2
    refine ⟨by rw [hl, hled], ?_⟩
    rw [ht, List.append_assoc] at ht2
    rw [eventsSince_append w _ _ ht2, ledWrites_append, hw]
    show ledWrites (.clientLoop :: es2) = _
    rw [← h1]
    simp [ledWrites]
  by_cases hs : w.session = true
  · rw [loop_connected fuel arrived alive w hs] at h
    injection h with h
    exact key (emit (.clientConnected true) w) rfl
      ⟨[.clientConnected true], rfl, by simp [ledWrites]⟩ h.symm
  · have hs2 : w.session = false := by simpa using hs
    rw [loop_disconnected fuel arrived alive w hs2] at h
    cases hr : reconnect fuel (emit (.clientConnected false) w) with
    | none => rw [hr] at h; simp at h
    | some wr =>
      rw [hr] at h
      injection h with h
      obtain ⟨hl, es, ht, hw, _⟩ := reconnect_frame fuel _ wr hr
      refine key wr hl ⟨.clientConnected false :: es, ?_, ?_⟩ h.symm
      · rw [ht]; simp [emit]
      · show ledWrites ([.clientConnected false] ++ es) = []
        rw [ledWrites_append, hw]; simp [ledWrites]

/-! ## Claims -/

/-- C1: for every integer `v` that fits the 32 bit `int` receiving the parse, the decimal text
of `v` parses to `v`, and `callback` on that payload (any topic, any prior world) leaves the LED
HIGH if and only if `v >= THRESHOLD = 1`, LOW otherwise; every negative `v` gives LOW, and the
payloads "0", "1", "5" give LOW, HIGH, HIGH. -/
theorem callback_decimal_threshold (v : Int) (topic : String) (w : World)
    (hlo : LONG_MIN ≤ v) (hhi : v ≤ LONG_MAX) :
    longToInt (toInt (decode (decimalText v) [])) = v
    ∧ ((callback topic (decimalText v) w).led = Level.HIGH ↔ v ≥ THRESHOLD)
    ∧ ((callback topic (decimalText v) w).led = Level.LOW ↔ ¬ v ≥ THRESHOLD)
    ∧ (v < 0 → (callback topic (decimalText v) w).led = Level.LOW)
    ∧ (callback topic [48] w).led = Level.LOW
    ∧ (callback topic [49] w).led = Level.HIGH
    ∧ (callback topic [53] w).led = Level.HIGH := by
  have hparse : longToInt (toInt (decode (decimalText v) [])) = v := by
    have h := toInt_decimalText v [] rfl
    rw [List.append_nil] at h
    rw [decode_eq, List.nil_append, h, longToInt_saturate]
    unfold saturate
    unfold LONG_MIN at hlo
    unfold LONG_MAX at hhi
    unfold LONG_MAX LONG_MIN
    split_ifs <;> omega
  have hled := callback_led topic (decimalText v) w
  rw [hparse] at hled
  refine ⟨hparse, ?_, ?_, ?_, ?_, ?_, ?_⟩
  · rw [hled]; unfold THRESHOLD; split_ifs <;> simp_all
  · rw [hled]; unfold THRESHOLD; split_ifs <;> simp_all
  · intro hneg
    rw [hled]
    have : ¬ v ≥ 1 := by omega
    simp [this]
  · rw [callback_led]; rfl
  · rw [callback_led]; rfl
  · rw [callback_led]; rfl

/-- Witness of C1 at `v = 5`. -/
theorem callback_decimal_threshold_witness :
    LONG_MIN ≤ 5 ∧ (5 : Int) ≤ LONG_MAX ∧ decimalText 5 = [53]
    ∧ (callback TOPIC (decimalText 5) sampleWorld).led = Level.HIGH :=
  ⟨by decide, by decide, by decide,
    (callback_decimal_threshold 5 TOPIC sampleWorld (by decide) (by decide)).2.1.mpr
      (by decide)⟩

/-- C2: when the payload is empty, or its text does not begin with an integer, the parsed value
is 0 and `callback`, a total function that returns a world and no error, leaves the LED LOW. -/
theorem callback_nonnumeric_off (topic : String) (payload : List Byte) (w : World)
    (h : payload = [] ∨ beginsWithInteger (decode payload []) = false) :
    toInt (decode payload []) = 0
    ∧ longToInt (toInt (decode payload [])) = 0
    ∧ (callback topic payload w).led = Level.LOW
    ∧ ledWrites (eventsSince w (callback topic payload w)) = [Level.LOW] := by
  have hb : beginsWithInteger (decode payload []) = false := by
    rcases h with h | h
    · subst h; rfl
    · exact h
  have h0 : toInt (decode payload []) = 0 := by
    rw [toInt_eq_atol]; exact atol_not_integer _ hb
  have hled : (callback topic payload w).led = Level.LOW := by
    rw [callback_led, h0]; rfl
  refine ⟨h0, by rw [h0]; rfl, hled, ?_⟩
  rw [eventsSince_append w _ _ (callback_trace topic payload w), hled]
  exact (callbackEvents_calls topic payload Level.LOW).1

/-- Witness of C2 at the payload "abc". -/
theorem callback_nonnumeric_off_witness :
    beginsWithInteger (decode [97, 98, 99] []) = false
    ∧ (callback TOPIC [97, 98, 99] sampleWorld).led = Level.LOW :=
  ⟨by decide, (callback_nonnumeric_off TOPIC [97, 98, 99] sampleWorld (Or.inr (by decide))).2.2.1⟩

/-- C3: the LED level after `callback` is determined by the comparison of the parsed payload
value with the threshold 1 alone: it is the same for every prior world (LED level, session
state, trace) and every topic. -/
theorem callback_led_only_payload (topic1 topic2 : String) (payload : List Byte)
    (w1 w2 : World) :
    (callback topic1 payload w1).led = (callback topic2 payload w2).led
    ∧ (callback topic1 payload w1).led
        = if longToInt (toInt (decode payload [])) ≥ THRESHOLD then Level.HIGH else Level.LOW := by
  constructor
  · rw [callback_led, callback_led]
  · rw [callback_led]; rfl

/-- C4: calling `callback` twice in succession with the same payload ends with the LED level of
a single call; each call writes `LED_PIN` exactly once, and both writes carry that same
level. -/
theorem callback_twice_no_flicker (topic : String) (payload : List Byte) (w : World) :
    (callback topic payload (callback topic payload w)).led = (callback topic payload w).led
    ∧ ledWrites (eventsSince w (callback topic payload w)) = [(callback topic payload w).led]
    ∧ ledWrites (eventsSince (callback topic payload w)
        (callback topic payload (callback topic payload w))) = [(callback topic payload w).led]
    ∧ ledWrites (eventsSince w (callback topic payload (callback topic payload w)))
        = [(callback topic payload w).led, (callback topic payload w).led] := by
  have hsame : (callback topic payload (callback topic payload w)).led
      = (callback topic payload w).led := by
    rw [callback_led, callback_led]
  have h1 := callback_trace topic payload w
  have h2 := callback_trace topic payload (callback topic payload w)
  refine ⟨hsame, ?_, ?_, ?_⟩
  · rw [eventsSince_append w _ _ h1]; exact (callbackEvents_calls _ _ _).1
  · rw [eventsSince_append _ _ _ h2, hsame]; exact (callbackEvents_calls _ _ _).1
  · rw [h1, List.append_assoc] at h2
    rw [eventsSince_append w _ _ h2, hsame, ledWrites_append, (callbackEvents_calls _ _ _).1]
    rfl

/-- C10: the decoded text is the payload itself, byte for byte, and the decision looks at the
leading number only: the decimal text of any integer `v` followed by a suffix that starts with
a character that is not a digit gives the same LED level as the text of `v` alone; "5abc" and
"1.9" give HIGH, "0abc" and "0.9" give LOW. -/
theorem callback_leading_number (topic : String) (payload : List Byte) (w : World)
    (v : Int) (c : Byte) (s : List Byte) (hc : isdigit c = false) :
    decode payload [] = payload
    ∧ (decode payload []).length = payload.length
    ∧ (∀ i : Nat, (decode payload [])[i]? = payload[i]?)
    ∧ toInt (decode (decimalText v ++ c :: s) []) = toInt (decode (decimalText v) [])
    ∧ (callback topic (decimalText v ++ c :: s) w).led = (callback topic (decimalText v) w).led
    ∧ (callback topic [53, 97, 98, 99] w).led = Level.HIGH
    ∧ (callback topic [48, 97, 98, 99] w).led = Level.LOW
    ∧ (callback topic [49, 46, 57] w).led = Level.HIGH
    ∧ (callback topic [48, 46, 57] w).led = Level.LOW := by
  have hd : decode payload [] = payload := by rw [decode_eq, List.nil_append]
  have hstop : stopsParse (c :: s) = true := by simp [stopsParse, hc]
  have hp : toInt (decode (decimalText v ++ c :: s) []) = toInt (decode (decimalText v) []) := by
    have h1 := toInt_decimalText v (c :: s) hstop
    have h2 := toInt_decimalText v [] rfl
    rw [List.append_nil] at h2
    rw [decode_eq, decode_eq, List.nil_append, List.nil_append, h1, h2]
  refine ⟨hd, by rw [hd], fun i => by rw [hd], hp, ?_, ?_, ?_, ?_, ?_⟩
  · rw [callback_led, callback_led, hp]
  · rw [callback_led]; rfl
  · rw [callback_led]; rfl
  · rw [callback_led]; rfl
  · rw [callback_led]; rfl

/-- Witness of C10 at the payload "5abc". -/
theorem callback_leading_number_witness :
    isdigit 97 = false ∧ decimalText 5 ++ 97 :: [98, 99] = [53, 97, 98, 99]
    ∧ (callback TOPIC (decimalText 5 ++ 97 :: [98, 99]) sampleWorld).led
        = (callback TOPIC (decimalText 5) sampleWorld).led :=
  ⟨by decide, by decide,
    (callback_leading_number TOPIC [] sampleWorld 5 97 [98, 99] (by decide)).2.2.2.2.1⟩

/-- C5: one iteration of `loop()` that starts with a connected session, or with a disconnected
one and a broker that accepts a connect attempt after the refusals `codes`, completes; its
calls are `pre`, then exactly one `client.loop`, then the message servicing `post`, which makes
no connect or subscribe call.  When the session was disconnected at the start, `pre` is the
`client.connected` check followed by the whole run of `reconnect`, which has returned with the
session connected; when it was connected, `pre` is the check alone and the iteration makes no
connect attempt and no subscription. -/
theorem loop_iteration_order (w : World) (codes : List Int) (fuel : Nat)
    (arrived : List Message) (alive : Bool)
    (hstart : w.session = true ∨
      (w.session = false
        ∧ (∀ i (h : i < codes.length), w.broker i = .refused codes[i])
        ∧ w.broker codes.length = .accepted
        ∧ codes.length + 2 ≤ fuel)) :
    ∃ w2 pre post, loop fuel arrived alive w = some w2
      ∧ eventsSince w w2 = pre ++ .clientLoop :: post
      ∧ clientLoopCalls pre = 0
      ∧ clientLoopCalls post = 0
      ∧ clientLoopCalls (eventsSince w w2) = 1
      ∧ connectCalls post = []
      ∧ subscribeCalls post = []
      ∧ (w.session = true →
          pre = [.clientConnected true]
          ∧ connectCalls (eventsSince w w2) = []
          ∧ subscribeCalls (eventsSince w w2) = [])
      ∧ (w.session = false →
          ∃ wr, reconnect fuel (clientConnected w).2 = some wr
            ∧ wr.session = true
            ∧ pre = .clientConnected false :: eventsSince (clientConnected w).2 wr
            ∧ w2 = clientLoop arrived alive wr) := by
  rcases hstart with hs | ⟨hs, hfail, hok, hfuel⟩
  · obtain ⟨_, post, ht, _, h2, h3, h4⟩ :=
      clientLoop_calls arrived alive (emit (.clientConnected true) w)
    have htr : (clientLoop arrived alive (emit (.clientConnected true) w)).trace
        = w.trace ++ ([.clientConnected true] ++ .clientLoop :: post) := by
      rw [ht]; simp [emit]
    refine ⟨_, [.clientConnected true], post, loop_connected fuel arrived alive w hs,
      eventsSince_append w _ _ htr, by simp [clientLoopCalls], h2, ?_, h3, h4, ?_, ?_⟩
    · rw [eventsSince_append w _ _ htr, clientLoopCalls_append]
      show _ + clientLoopCalls ([.clientLoop] ++ post) = 1
      rw [clientLoopCalls_append, h2]; simp [clientLoopCalls]
    · intro _
      refine ⟨rfl, ?_, ?_⟩
      · rw [eventsSince_append w _ _ htr, connectCalls_append]
        show _ ++ connectCalls ([.clientLoop] ++ post) = []
        rw [connectCalls_append, h3]; simp [connectCalls]
      · rw [eventsSince_append w _ _ htr, subscribeCalls_append]
        show _ ++ subscribeCalls ([.clientLoop] ++ post) = []
        rw [subscribeCalls_append, h4]; simp [subscribeCalls]
    · intro hf; rw [hs] at hf; exact absurd hf (by simp)
  · have hrun : reconnect fuel (emit (.clientConnected false) w)
        = some (afterReconnect codes (emit (.clientConnected false) w)) :=
      reconnect_run codes _ fuel hs hfail hok hfuel
    obtain ⟨_, post, ht, _, h2, h3, h4⟩ :=
      clientLoop_calls arrived alive (afterReconnect codes (emit (.clientConnected false) w))
    have hc : (clientConnected w).2 = emit (.clientConnected false) w := by
      simp [clientConnected, hs]
    have hpre : eventsSince (emit (.clientConnected false) w)
          (afterReconnect codes (emit (.clientConnected false) w))
        = failedRounds codes ++ acceptedAttempt := eventsSince_append _ _ _ rfl
    have htr : (clientLoop arrived alive
          (afterReconnect codes (emit (.clientConnected false) w))).trace
        = w.trace ++ ((.clientConnected false :: (failedRounds codes ++ acceptedAttempt))
            ++ .clientLoop :: post) := by
      rw [ht]; simp [afterReconnect, emit]
    have hp0 : clientLoopCalls (.clientConnected false :: (failedRounds codes ++ acceptedAttempt))
        = 0 := by
      show clientLoopCalls ([.clientConnected false] ++ (failedRounds codes ++ acceptedAttempt)) = 0
      rw [clientLoopCalls_append, clientLoopCalls_append, (failedRounds_calls codes).2.1,
        acceptedAttempt_calls.2.1]
      simp [clientLoopCalls]
    refine ⟨_, .clientConnected false :: (failedRounds codes ++ acceptedAttempt), post, ?_,
      eventsSince_append w _ _ htr, hp0, h2, ?_, h3, h4, ?_, ?_⟩
    · rw [loop_disconnected fuel arrived alive w hs, hrun]; rfl
    · rw [eventsSince_append w _ _ htr, clientLoopCalls_append, hp0]
      show _ + clientLoopCalls ([.clientLoop] ++ post) = 1
      rw [clientLoopCalls_append, h2]; simp [clientLoopCalls]
    · intro ht2; rw [hs] at ht2; exact absurd ht2 (by simp)
    · intro _
      exact ⟨_, by rw [hc]; exact hrun, rfl, by rw [hc, hpre], rfl⟩

/-- Witness of C5: an iteration that starts disconnected, with two refusals before the accept,
and an iteration that starts connected. -/
theorem loop_iteration_order_witness :
    (sampleWorld.session = false ∧ sampleWorld.broker 2 = .accepted
      ∧ ∃ w2 pre post, loop 4 [] true sampleWorld = some w2
          ∧ eventsSince sampleWorld w2 = pre ++ .clientLoop :: post
          ∧ clientLoopCalls (eventsSince sampleWorld w2) = 1)
    ∧ ∃ w2 pre post, loop 0 [] true { sampleWorld with session := true } = some w2
        ∧ eventsSince { sampleWorld with session := true } w2 = pre ++ .clientLoop :: post
        ∧ clientLoopCalls (eventsSince { sampleWorld with session := true } w2) = 1 :=
  ⟨⟨rfl, rfl,
      match loop_iteration_order sampleWorld [-2, -2] 4 [] true
        (Or.inr ⟨rfl, by decide, rfl, by decide⟩) with
      | ⟨w2, pre, post, h1, h2, _, _, h5, _⟩ => ⟨w2, pre, post, h1, h2, h5⟩⟩,
    match loop_iteration_order { sampleWorld with session := true } [] 0 [] true
      (Or.inl rfl) with
    | ⟨w2, pre, post, h1, h2, _, _, h5, _⟩ => ⟨w2, pre, post, h1, h2, h5⟩⟩

/-- C6: when the broker refuses the attempts `codes` and accepts the next one, `reconnect`
returns with the session connected; right after the accepted `client.connect` it logs
"connected", subscribes to `TOPIC`, checks `client.connected` and returns: no delay and no
further connect attempt follow, the refused rounds before made no subscription, and the whole
run holds exactly one accepted connect and exactly one subscription, to `TOPIC`. -/
theorem reconnect_subscribes_once (w : World) (codes : List Int) (fuel : Nat)
    (hs : w.session = false)
    (hfail : ∀ i (h : i < codes.length), w.broker i = .refused codes[i])
    (hok : w.broker codes.length = .accepted)
    (hfuel : codes.length + 2 ≤ fuel) :
    ∃ w2, reconnect fuel w = some w2
      ∧ w2.session = true
      ∧ eventsSince w w2 = failedRounds codes ++
          [ .clientConnected false,
            .serialPrint (.lit "Attempting MQTT connection..."),
            .clientConnect DEVICE_ID BROKER_USERNAME BROKER_PASSWORD true,
            .serialPrintln (.lit "connected"),
            .clientSubscribe TOPIC,
            .clientConnected true ]
      ∧ subscribeCalls (failedRounds codes) = []
      ∧ subscribeCalls (eventsSince w w2) = [TOPIC]
      ∧ (connectCalls (eventsSince w w2)).filter (fun c => c.2.2.2)
          = [(DEVICE_ID, BROKER_USERNAME, BROKER_PASSWORD, true)]
      ∧ (connectCalls (eventsSince w w2)).getLast?
          = some (DEVICE_ID, BROKER_USERNAME, BROKER_PASSWORD, true) := by
  have hrun := reconnect_run codes w fuel hs hfail hok hfuel
  have hev : eventsSince w (afterReconnect codes w) = failedRounds codes ++ acceptedAttempt :=
    eventsSince_append _ _ _ rfl
  obtain ⟨_, _, f3, _, _, f6⟩ := failedRounds_calls codes
  obtain ⟨_, _, a3, _, _, a6⟩ := acceptedAttempt_calls
  refine ⟨afterReconnect codes w, hrun, rfl, by rw [hev]; rfl, f3, ?_, ?_, ?_⟩
  · rw [hev, subscribeCalls_append, f3, a3]; rfl
  · rw [hev, connectCalls_append, f6, a6, List.filter_append]
    simp [List.filter_replicate]
  · rw [hev, connectCalls_append, f6, a6]
    simp

/-- Witness of C6: two refusals, then the accepted attempt. -/
theorem reconnect_subscribes_once_witness :
    sampleWorld.session = false ∧ sampleWorld.broker 2 = .accepted
    ∧ ∃ w2, reconnect 4 sampleWorld = some w2 ∧ w2.session = true
        ∧ subscribeCalls (eventsSince sampleWorld w2) = [TOPIC] :=
  ⟨rfl, rfl,
    match reconnect_subscribes_once sampleWorld [-2, -2] 4 rfl (by decide) rfl (by decide) with
    | ⟨w2, h1, h2, _, _, h5, _⟩ => ⟨w2, h1, h2, h5⟩⟩

/-- C7: for every list `codes` of reason codes, of any length `n`: when the broker refuses the
first `n` connect attempts with these codes and accepts attempt `n + 1`, `reconnect` returns
after exactly `n + 1` connect attempts, all with `DEVICE_ID`, `BROKER_USERNAME` and
`BROKER_PASSWORD`, the first `n` failing and the last succeeding.  Each refused round logs its
reason code, calls `delay(5000)` once, subscribes to nothing and is followed by the next
attempt: the run makes exactly `n` delays, each of 5000 ms, and logs exactly `codes`. -/
theorem reconnect_retries (w : World) (codes : List Int) (fuel : Nat)
    (hs : w.session = false)
    (hfail : ∀ i (h : i < codes.length), w.broker i = .refused codes[i])
    (hok : w.broker codes.length = .accepted)
    (hfuel : codes.length + 2 ≤ fuel) :
    ∃ w2, reconnect fuel w = some w2
      ∧ eventsSince w w2 = failedRounds codes ++ acceptedAttempt
      ∧ connectCalls (eventsSince w w2)
          = List.replicate codes.length (DEVICE_ID, BROKER_USERNAME, BROKER_PASSWORD, false)
            ++ [(DEVICE_ID, BROKER_USERNAME, BROKER_PASSWORD, true)]
      ∧ (connectCalls (eventsSince w w2)).length = codes.length + 1
      ∧ delayCalls (eventsSince w w2) = List.replicate codes.length 5000
      ∧ (delayCalls (eventsSince w w2)).length = codes.length
      ∧ loggedCodes (eventsSince w w2) = codes
      ∧ subscribeCalls (failedRounds codes) = []
      ∧ (∀ rc rest, failedRounds (rc :: rest) =
          [ .clientConnected false,
            .serialPrint (.lit "Attempting MQTT connection..."),
            .clientConnect DEVICE_ID BROKER_USERNAME BROKER_PASSWORD false,
            .serialPrint (.lit "failed, rc="),
            .serialPrint (.int rc),
            .serialPrintln (.lit " try again in 5 seconds"),
            .delay 5000 ] ++ failedRounds rest) := by
  have hrun := reconnect_run codes w fuel hs hfail hok hfuel
  have hev : eventsSince w (afterReconnect codes w) = failedRounds codes ++ acceptedAttempt :=
    eventsSince_append _ _ _ rfl
  obtain ⟨_, _, f3, f4, f5, f6⟩ := failedRounds_calls codes
  obtain ⟨_, _, _, a4, a5, a6⟩ := acceptedAttempt_calls
  have hc : connectCalls (eventsSince w (afterReconnect codes w))
      = List.replicate codes.length (DEVICE_ID, BROKER_USERNAME, BROKER_PASSWORD, false)
        ++ [(DEVICE_ID, BROKER_USERNAME, BROKER_PASSWORD, true)] := by
    rw [hev, connectCalls_append, f6, a6]
  have hd : delayCalls (eventsSince w (afterReconnect codes w))
      = List.replicate codes.length 5000 := by
    rw [hev, delayCalls_append, f4, a4, List.append_nil]
  refine ⟨afterReconnect codes w, hrun, hev, hc, ?_, hd, ?_, ?_, f3, fun _ _ => rfl⟩
  · rw [hc]; simp
  · rw [hd]; simp
  · rw [hev, loggedCodes_append, f5, a5, List.append_nil]

/-- Witness of C7: two refusals with reason code -2, then the accepted attempt. -/
theorem reconnect_retries_witness :
    sampleWorld.session = false ∧ sampleWorld.broker 0 = .refused (-2)
    ∧ sampleWorld.broker 1 = .refused (-2) ∧ sampleWorld.broker 2 = .accepted
    ∧ ∃ w2, reconnect 4 sampleWorld = some w2
        ∧ (connectCalls (eventsSince sampleWorld w2)).length = 3
        ∧ delayCalls (eventsSince sampleWorld w2) = [5000, 5000]
        ∧ loggedCodes (eventsSince sampleWorld w2) = [-2, -2] :=
  ⟨rfl, rfl, rfl, rfl,
    match reconnect_retries sampleWorld [-2, -2] 4 rfl (by decide) rfl (by decide) with
    | ⟨w2, h1, _, _, h4, h5, _, h7, _⟩ => ⟨w2, h1, h4, h5, h7⟩⟩

/-- C8: when the network associates after `k` failed polls, `setup` returns with the LED LOW:
its third call writes LOW to `LED_PIN`, that is the only write to the pin in the whole of
`setup`, nothing after it (`setup_wifi`, `setServer`, `setCallback`) writes the pin, and no
message is serviced during `setup`. -/
theorem setup_leaves_led_off (w : World) (k fuel : Nat)
    (hdown : ∀ i, i < k → w.wifi i = false) (hup : w.wifi k = true) (hfuel : k + 1 ≤ fuel) :
    ∃ w2, setup fuel w = some w2
      ∧ w2.led = Level.LOW
      ∧ eventsSince w w2 = setupEvents k
      ∧ (eventsSince w w2).take 3
          = [.serialBegin 115200, .pinModeOutput LED_PIN, .digitalWrite LED_PIN .LOW]
      ∧ ledWrites (eventsSince w w2) = [Level.LOW]
      ∧ ledWrites ((eventsSince w w2).drop 3) = []
      ∧ clientLoopCalls (eventsSince w w2) = 0 := by
  have hrun := setup_run k w fuel hdown hup hfuel
  have hev : eventsSince w
      { w with led := Level.LOW, wifi := fun i => w.wifi (i + (k + 1)),
               trace := w.trace ++ setupEvents k } = setupEvents k :=
    eventsSince_append _ _ _ rfl
  obtain ⟨p1, p2⟩ := pollRounds_calls k
  refine ⟨_, hrun, rfl, hev, ?_, ?_, ?_, ?_⟩
  · rw [hev]; simp [setupEvents]
  · rw [hev]
    simp only [setupEvents, ledWrites_append, p1]
    simp [ledWrites]
  · rw [hev]
    simp only [setupEvents, List.cons_append, List.drop_succ_cons, List.drop_zero,
      List.nil_append]
    show ledWrites ([ Event.delay 10, .serialPrintln (.lit ""),
      .serialPrint (.lit "Connecting to "), .serialPrintln (.lit WIFI_SSID),
      .wifiBegin WIFI_SSID WIFI_PASSWORD ] ++ (pollRounds k ++ _)) = []
    simp only [ledWrites_append, p1]
    simp [ledWrites]
  · rw [hev]
    simp only [setupEvents, clientLoopCalls_append, p2]
    simp [clientLoopCalls]

/-- Witness of C8: the network associates at the third poll, the LED was lit before `setup`. -/
theorem setup_leaves_led_off_witness :
    sampleWorld.led = Level.HIGH ∧ sampleWorld.wifi 2 = true
    ∧ ∃ w2, setup 3 sampleWorld = some w2 ∧ w2.led = Level.LOW
        ∧ ledWrites (eventsSince sampleWorld w2) = [Level.LOW] :=
  ⟨rfl, rfl,
    match setup_leaves_led_off sampleWorld 2 3 (by decide) rfl (by decide) with
    | ⟨w2, h1, h2, _, _, h5, _⟩ => ⟨w2, h1, h2, h5⟩⟩

/-- C9: every completed run of `setup_wifi`, of `reconnect` and of an iteration of `loop()` in
which no message is delivered leaves the LED level as it was and writes nothing to `LED_PIN`,
however many connect attempts were made; in an iteration that delivers messages, the writes to
`LED_PIN` are exactly the decisions of `callback`, one per delivered message. -/
theorem led_written_only_by_callback (w w2 : World) (fuel : Nat) (arrived : List Message)
    (alive : Bool) :
    (setup_wifi fuel w = some w2 → w2.led = w.led ∧ ledWrites (eventsSince w w2) = [])
    ∧ (reconnect fuel w = some w2 → w2.led = w.led ∧ ledWrites (eventsSince w w2) = [])
    ∧ (loop fuel [] alive w = some w2 → w2.led = w.led ∧ ledWrites (eventsSince w w2) = [])
    ∧ (loop fuel arrived alive w = some w2 →
        ledWrites (eventsSince w w2)
          = arrived.map (fun m => (callback m.topic m.payload w).led)) := by
  refine ⟨?_, ?_, ?_, ?_⟩
  · intro h
    obtain ⟨hl, es, ht, hw⟩ := setup_wifi_frame fuel w w2 h
    exact ⟨hl, by rw [eventsSince_append w w2 es ht, hw]⟩
  · intro h
    obtain ⟨hl, es, ht, hw, _⟩ := reconnect_frame fuel w w2 h
    exact ⟨hl, by rw [eventsSince_append w w2 es ht, hw]⟩
  · intro h
    obtain ⟨hl, hw⟩ := loop_frame fuel [] alive w w2 h
    exact ⟨by simpa using hl, by simpa using hw⟩
  · intro h
    exact (loop_frame fuel arrived alive w w2 h).2

/-- Witness of C9: an iteration with two refused connect attempts, an accepted one and no
message leaves the LED lit as it was. -/
theorem led_written_only_by_callback_witness :
    (loop 4 [] true sampleWorld).isSome = true
    ∧ ((loop 4 [] true sampleWorld).getD sampleWorld).led = sampleWorld.led
    ∧ ledWrites (eventsSince sampleWorld ((loop 4 [] true sampleWorld).getD sampleWorld)) = [] :=
  ⟨rfl, (led_written_only_by_callback sampleWorld ((loop 4 [] true sampleWorld).getD sampleWorld)
      4 [] true).2.2.1 rfl⟩

end IotDetector
